import Mathlib

/-!
Verification of the task-graph builder in `src/build/service.js` of
taskcluster-installer.

The single source file `generateServiceTasks` is shallowly embedded here:

* the Procfile parsing code inside the `Service <name> - Compile` task
  (`Procfile.split('\n').map(...)` with the regex `^([^:]+):?\s+(.*)$`
  applied to the trimmed line) becomes `parseProcfile` below, with the
  regex's backtracking semantics given by the executable matcher
  `execMatch`;
* each task's `run` procedure becomes a Lean function from an explicit
  environment (the values of its requirements and the outcomes of the
  delegated operations it awaits) to the ordered trace of delegated
  operations it performs (`List Op`) together with its outcome
  (`RunResult`);
* `ensureTask` and the static shape of the generated task list (titles,
  `requires`, `provides`) become list-valued functions.

`dirStamped`/`stampDir` live in `./utils`, which is not part of the
sources; they are modelled from the spec (§4.2) as an `Option String`
stamp state per directory.
-/

/-- JS `\s` character class (whitespace), as used by `String.trim` and by
the `\s+` part of the Procfile regex. -/
def isSpaceJS (c : Char) : Bool :=
  c == ' ' || c == '\t' || c == '\n' || c == '\r' || c == '\u000b' || c == '\u000c' ||
  c == '\u00a0' || c == '\u1680' || ('\u2000' ≤ c && c ≤ '\u200a') ||
  c == '\u2028' || c == '\u2029' || c == '\u202f' || c == '\u205f' || c == '\u3000' ||
  c == '\ufeff'

/-- JS line terminators: the characters `.` does NOT match (the regex has
no `s` flag). -/
def isLineTerm (c : Char) : Bool :=
  c == '\n' || c == '\r' || c == '\u2028' || c == '\u2029'

/-- JS `line.trim()`: strip whitespace from both ends. -/
def jsTrim (l : List Char) : List Char :=
  ((l.dropWhile isSpaceJS).reverse.dropWhile isSpaceJS).reverse

/-- Matching `\s+(.*)$` against `u` (anchored at both ends): at least one
whitespace character, then a remainder containing no line terminator.
Greedy `\s+` takes the maximal whitespace run; shortening it can never
help, because the dropped whitespace would flow into the remainder and a
line terminator in the remainder stays there. Returns group 2. -/
def matchTail (u : List Char) : Option (List Char) :=
  let W := u.takeWhile isSpaceJS
  let B := u.dropWhile isSpaceJS
  if W.isEmpty then none
  else if B.any isLineTerm then none
  else some B

/-- Backtracking search for `^([^:]+):?\s+(.*)$`: `arev` is the reversed
current candidate for group 1 (always colon-free, initially the maximal
colon-free prefix), `R` the rest of the input.  At each candidate, first
try to consume a colon (greedy `:?`), then try without; on failure give
the last character of group 1 back to `R` and retry (greedy `[^:]+`
backtracks from longest to shortest, never empty). -/
def tryColon (A : List Char) : List Char → Option (List Char × List Char)
  | c :: R2 => if c == ':' then (matchTail R2).map (fun B => (A, B)) else none
  | [] => none

def matchFrom : List Char → List Char → Option (List Char × List Char)
  | [], _ => none
  | a :: arev, R =>
    match tryColon ((a :: arev).reverse) R with
    | some r => some r
    | none =>
      match (matchTail R).map (fun B => ((a :: arev).reverse, B)) with
      | some r => some r
      | none => matchFrom arev (a :: R)

/-- Semantics of `/^([^:]+):?\s+(.*)$/.exec(t)`: start `[^:]+` at its
maximal match, the longest colon-free prefix. Returns the pair of
group 1 and group 2 on success. -/
def execMatch (t : List Char) : Option (List Char × List Char) :=
  matchFrom ((t.takeWhile (fun c => !(c == ':'))).reverse)
    (t.dropWhile (fun c => !(c == ':')))

/-- Modelled from the spec: the `quote` function of the external
`shell-quote` package (not part of this repository), applied to the
one-element array `[command]` — "each command value is shell-escaped as a
single quoted token" (§4.4). -/
def shellQuote (s : String) : String :=
  "'" ++ s ++ "'"

/-- One parsed Procfile record: `{name: parts[1], command: quote([parts[2]])}`. -/
structure Proc where
  name : String
  command : String
deriving DecidableEq

/-- The body of the `Procfile.split('\n').map(...)` callback: blank lines
(`!line`) and lines starting with `#` map to `null` (here `none`); any
other line is trimmed and matched against the regex; a non-matching line
throws `unexpected line in Procfile: <line>`. -/
def parseLine (line : String) : Except String (Option Proc) :=
  if line.data.isEmpty || line.data.head? == some '#' then
    Except.ok none
  else
    match execMatch (jsTrim line.data) with
    | none => Except.error ("unexpected line in Procfile: " ++ line)
    | some (n, c) => Except.ok (some ⟨String.mk n, shellQuote (String.mk c)⟩)

/-- Sequential processing of the split lines: the first throwing line
aborts the whole map; `null` entries are filtered out afterwards. -/
def parseLines : List String → Except String (List Proc)
  | [] => Except.ok []
  | l :: ls =>
    match parseLine l with
    | Except.error e => Except.error e
    | Except.ok none => parseLines ls
    | Except.ok (some p) => (parseLines ls).map (fun ps => p :: ps)

/-- JS `str.split(sep)` for a one-character separator: the list of
chunks between occurrences of `sep`; never empty (`"".split` is
`[""]`). -/
def splitChar (sep : Char) : List Char → List (List Char)
  | [] => [[]]
  | c :: cs =>
    if c == sep then [] :: splitChar sep cs
    else
      match splitChar sep cs with
      | [] => [[c]]
      | h :: t => (c :: h) :: t

/-- The whole Procfile-parsing block of the Compile task's `run`
(service.js lines 163–173): `Procfile.split('\n')`, map, filter. -/
def parseProcfile (text : String) : Except String (List Proc) :=
  parseLines ((splitChar '\n' text.data).map String.mk)

/-- Whether an `Except` is an error. -/
def exceptIsError {ε α : Type} : Except ε α → Bool
  | Except.error _ => true
  | Except.ok _ => false

/-- The decomposition recognized by `^([^:]+):?\s+(.*)$` (anchored, no
`m`/`s` flags): a nonempty colon-free group 1, an optional colon, at
least one whitespace character, and a remainder with no line
terminator. -/
def RegexForm (t : List Char) : Prop :=
  ∃ A c W B, t = A ++ c ++ W ++ B ∧ A ≠ [] ∧ (∀ x ∈ A, (x == ':') = false) ∧
    (c = [] ∨ c = [':']) ∧ W ≠ [] ∧ (∀ x ∈ W, isSpaceJS x = true) ∧
    (∀ x ∈ B, isLineTerm x = false)

/-- A value placed in the shared provides namespace: the tasks here
provide directory paths, image tags (strings) and the boolean
`image-on-registry` flag. -/
inductive Value
  | str (s : String)
  | bool (b : Bool)
deriving DecidableEq

/-- One delegated or filesystem side effect performed by a task's `run`,
in the order the source awaits them.  `step` is the `utils.step`
progress notification. -/
inductive Op
  | rimraf (dir : String)
  | copyDir (src dst : String)
  | step (title : String)
  | dockerRun (image : String) (command : List String) (logfile : String)
  | mkdir (dir : String)
  | mkdirp (dir : String)
  | writeFile (path : String)
  | stamp (dir : String) (sources : String)
  | dockerPull (image : String)
  | dockerBuild (tag : String) (logfile : String)
  | dockerPush (tag : String)
  | dockerImages
  | registryCheck (tag : String)
deriving DecidableEq

/-- Outcome of a `run`: a normal return (`completed`, carrying the
returned value — `none` models JS `undefined`), the distinguished
`utils.skip(providesMap)` return, or a thrown error. -/
inductive RunResult
  | completed (ret : Option (List (String × Value)))
  | skipped (provides : List (String × Value))
  | failed (msg : String)
deriving DecidableEq

/-- Modelled from the spec: `dirStamped({dir, sources})` from `./utils`
(not under the sources) — "true iff `dir` exists and contains a stamp
record whose stored identifier equals `sourceId` exactly (string
equality, no normalization)" (§4.2).  The stamp state of a directory is
`none` (missing/unstamped) or `some id`. -/
def dirStamped (stampState : Option String) (sources : String) : Bool :=
  stampState == some sources

/-- Modelled from the spec: the effect of a trace of operations on the
stamp state of directory `dir` — `stampDir` "writes/overwrites the stamp
record" (§4.2) and removing the directory removes its stamp. -/
def stampAfter (dir : String) (init : Option String) : List Op → Option String
  | [] => init
  | Op.rimraf d :: rest => stampAfter dir (if d == dir then none else init) rest
  | Op.stamp d s :: rest => stampAfter dir (if d == dir then some s else init) rest
  | _ :: rest => stampAfter dir init rest

/-- The static shape of a task node: its title and its `requires` /
`provides` key lists. -/
structure TaskNode where
  title : String
  requires : List String
  provides : List String
deriving DecidableEq

/-- Function `ensureTask`: add a task to `tasks` only if no task with the
same title is already there (`_.find(tasks, {title: task.title})`);
`tasks.push(task)` appends. -/
def ensureTask (tasks : List TaskNode) (task : TaskNode) : List TaskNode :=
  if tasks.any (fun t => t.title == task.title) then tasks
  else tasks ++ [task]

/-- Static shape of `Service <name> - Compile` (requires/provides). -/
def compileTask (name buildImage buildpackName : String) : TaskNode :=
  { title := "Service " ++ name ++ " - Compile"
    requires := ["repo-" ++ name ++ "-dir",
                 "repo-" ++ name ++ "-exact-source",
                 "docker-image-" ++ buildImage,
                 "repo-" ++ buildpackName]
    provides := ["service-" ++ name ++ "-built-app-dir"] }

/-- Static shape of `Service <name> - Build Image`. -/
def buildImageTask (name stackImage : String) : TaskNode :=
  { title := "Service " ++ name ++ " - Build Image"
    requires := ["repo-" ++ name ++ "-exact-source",
                 "service-" ++ name ++ "-built-app-dir",
                 "docker-image-" ++ stackImage]
    provides := ["service-" ++ name ++ "-docker-image",
                 "service-" ++ name ++ "-image-on-registry"] }

/-- Static shape of `Service <name> - Generate Docs`. -/
def docsTask (name stackImage : String) : TaskNode :=
  { title := "Service " ++ name ++ " - Generate Docs"
    requires := ["repo-" ++ name ++ "-exact-source",
                 "service-" ++ name ++ "-built-app-dir",
                 "docker-image-" ++ stackImage]
    provides := ["docs-" ++ name ++ "-dir"] }

/-- Static shape of `Service <name> - Push Image`. -/
def pushTask (name : String) : TaskNode :=
  { title := "Service " ++ name ++ " - Push Image"
    requires := ["service-" ++ name ++ "-docker-image",
                 "service-" ++ name ++ "-image-on-registry"]
    provides := [] }

/-- The task-list construction of `generateServiceTasks` (static shape):
three `ensureTask` registrations of shared prerequisite nodes, then the
four per-service stage nodes pushed unconditionally. -/
def generateServiceTasks (tasks : List TaskNode)
    (name stackImage buildImage buildpackName : String) : List TaskNode :=
  let t1 := ensureTask tasks
    { title := "Pull Docker Image " ++ stackImage
      requires := []
      provides := ["docker-image-" ++ stackImage] }
  let t2 := ensureTask t1
    { title := "Pull Docker Image " ++ buildImage
      requires := []
      provides := ["docker-image-" ++ buildImage] }
  let t3 := ensureTask t2
    { title := "Clone " ++ buildpackName
      requires := []
      provides := ["repo-" ++ buildpackName] }
  t3 ++ [compileTask name buildImage buildpackName,
         buildImageTask name stackImage,
         docsTask name stackImage,
         pushTask name]

/-- The `run` of the two `Pull Docker Image` tasks: `await dockerPull`
and fall off the end of the function — the JS function returns
`undefined`, not its provides map. -/
def pullImageRun (image : String) (pullOk : Bool) : List Op × RunResult :=
  ([Op.dockerPull image],
   if pullOk then RunResult.completed none else RunResult.failed "docker pull failed")

/-- Environment of `Service <name> - Compile`'s `run`: its requirement
values, the current stamp state of the output directory, and the
outcomes of the delegated operations it awaits. -/
structure CompileEnv where
  repoDir : String
  exactSource : String
  bpDir : String
  appDirStamp : Option String
  copyOk : Bool
  detectOk : Bool
  compileOk : Bool
  envDirExists : Bool
  cacheDirExists : Bool
  procfile : Option String
deriving DecidableEq

/-- The provides map of the Compile task's `run`. -/
def compileProvides (name workDir : String) : List (String × Value) :=
  [("service-" ++ name ++ "-built-app-dir", Value.str (workDir ++ "/app"))]

/-- The `run` of `Service <name> - Compile` (service.js lines 97–179):
skip when the app directory is stamped with the exact source; otherwise
remove it, copy the source, run buildpack detect and compile, parse the
Procfile, write the entrypoint, and stamp last. -/
def compileRun (name workDir buildImage : String) (env : CompileEnv) :
    List Op × RunResult :=
  let appDir := workDir ++ "/app"
  let envDir := workDir ++ "/env"
  let cacheDir := workDir ++ "/cache"
  let provides := compileProvides name workDir
  if dirStamped env.appDirStamp env.exactSource then
    ([], RunResult.skipped provides)
  else
    let ops1 := [Op.rimraf appDir, Op.step "Copy Source Repository",
                 Op.copyDir env.repoDir appDir]
    if !env.copyOk then (ops1, RunResult.failed "copy failed") else
    let ops2 := ops1 ++ [Op.step "Buildpack Detect",
      Op.dockerRun buildImage ["/buildpack/bin/detect", "/app"] (workDir ++ "/detect.log")]
    if !env.detectOk then (ops2, RunResult.failed "detect failed") else
    let ops3 := ops2 ++ [Op.step "Buildpack Compile"]
      ++ (if env.envDirExists then [Op.rimraf envDir] else [])
      ++ [Op.mkdir envDir]
      ++ (if env.cacheDirExists then [] else [Op.mkdir cacheDir])
      ++ [Op.dockerRun buildImage ["/buildpack/bin/compile", "/app", "/cache", "/env"]
            (workDir ++ "/compile.log")]
    if !env.compileOk then (ops3, RunResult.failed "compile failed") else
    let ops4 := ops3 ++ [Op.step "Create Entrypoint Script"]
    match env.procfile with
    | none => (ops4, RunResult.failed ("Service " ++ name ++ " has no Procfile"))
    | some pf =>
      match parseProcfile pf with
      | Except.error e => (ops4, RunResult.failed e)
      | Except.ok _procs =>
        (ops4 ++ [Op.writeFile (appDir ++ "/entrypoint"),
                  Op.stamp appDir env.exactSource],
         RunResult.completed (some provides))

/-- Environment of `Service <name> - Generate Docs`'s `run`. -/
structure DocsEnv where
  appDir : String
  exactSource : String
  docsDirStamp : Option String
  genOk : Bool
deriving DecidableEq

/-- The provides map of the Generate Docs task's `run`. -/
def docsProvides (name baseDir : String) : List (String × Value) :=
  [("docs-" ++ name ++ "-dir", Value.str (baseDir ++ "/docs/" ++ name))]

/-- The `run` of `Service <name> - Generate Docs` (service.js lines
251–283): skip when the docs directory is stamped; otherwise remove it,
run the entrypoint's `write-docs` in a container, and stamp last. -/
def docsRun (name baseDir workDir stackImage : String) (env : DocsEnv) :
    List Op × RunResult :=
  let docsDir := baseDir ++ "/docs/" ++ name
  let provides := docsProvides name baseDir
  if dirStamped env.docsDirStamp env.exactSource then
    ([], RunResult.skipped provides)
  else
    let ops1 := [Op.rimraf docsDir, Op.mkdirp (baseDir ++ "/docs"),
      Op.dockerRun stackImage ["/app/entrypoint", "write-docs"]
        (workDir ++ "/generate-docs.log")]
    if env.genOk then
      (ops1 ++ [Op.stamp docsDir env.exactSource],
       RunResult.completed (some provides))
    else (ops1, RunResult.failed "docker run failed")

/-- One entry of the `dockerImages({baseDir})` listing; `RepoTags` may be
null. -/
structure DockerImage where
  RepoTags : Option (List String)
deriving DecidableEq

/-- The tag computed by the Build Image task:
`${cfg.docker.repositoryPrefix}${name}:${headRef}` with `headRef` the
part of the exact source after `#` (JS `split('#')[1]`, `undefined`
templating to the string "undefined" when absent). -/
def imageTag (repositoryPrefixStr name exactSource : String) : String :=
  repositoryPrefixStr ++ name ++ ":" ++
    (((splitChar '#' exactSource.data).map String.mk).getD 1 "undefined")

/-- Probe `image.RepoTags && image.RepoTags.indexOf(tag) !== -1` over the
local image listing. -/
def imageLocal (images : List DockerImage) (tag : String) : Bool :=
  images.any (fun i =>
    match i.RepoTags with
    | some ts => ts.contains tag
    | none => false)

/-- Environment of `Service <name> - Build Image`'s `run`. -/
structure BuildImageEnv where
  appDir : String
  exactSource : String
  images : List DockerImage
  imageOnRegistry : Bool
  pullOk : Bool
  buildOk : Bool
deriving DecidableEq

/-- The provides map of the Build Image task's `run`: the computed tag
and the raw registry-probe result. -/
def buildImageProvides (name tag : String) (onRegistry : Bool) : List (String × Value) :=
  [("service-" ++ name ++ "-docker-image", Value.str tag),
   ("service-" ++ name ++ "-image-on-registry", Value.bool onRegistry)]

/-- The probe operations every Build Image invocation performs first. -/
def buildImageProbeOps (tag : String) : List Op :=
  [Op.step "Check for Existing Images", Op.dockerImages, Op.registryCheck tag]

/-- The `run` of `Service <name> - Build Image` (service.js lines
193–238): probe local store and registry; pull-then-skip when only
remote; skip when local; otherwise build. -/
def buildImageRun (name workDir repositoryPrefixStr : String)
    (env : BuildImageEnv) : List Op × RunResult :=
  let tag := imageTag repositoryPrefixStr name env.exactSource
  let imgLocal := imageLocal env.images tag
  let probeOps := buildImageProbeOps tag
  let provides := buildImageProvides name tag env.imageOnRegistry
  if !imgLocal && env.imageOnRegistry then
    (probeOps ++ [Op.dockerPull tag],
     if env.pullOk then RunResult.skipped provides
     else RunResult.failed "docker pull failed")
  else if imgLocal then
    (probeOps, RunResult.skipped provides)
  else
    let buildOps := probeOps ++ [Op.step "Create Docker-Build Tarball",
      Op.writeFile (workDir ++ "/Dockerfile"),
      Op.dockerBuild tag (workDir ++ "/docker-build.log")]
    if env.buildOk then (buildOps, RunResult.completed (some provides))
    else (buildOps, RunResult.failed "docker build failed")

/-- Environment of `Service <name> - Push Image`'s `run`. -/
structure PushEnv where
  tag : String
  onRegistry : Bool
  push : Bool
  pushOk : Bool
deriving DecidableEq

/-- The `run` of `Service <name> - Push Image` (service.js lines
294–313): skip when `cmdOptions.push` is unset; throw when the image is
already on the registry; otherwise `dockerPush` and then `return
provides` — but no `provides` is in scope in that function, so a
successful push ends in a thrown `ReferenceError`. -/
def pushImageRun (_workDir : String) (env : PushEnv) : List Op × RunResult :=
  if !env.push then ([], RunResult.skipped []) else
  if env.onRegistry then
    ([], RunResult.failed ("Image " ++ env.tag ++ " already exists on the registry; not pushing"))
  else
    ([Op.dockerPush env.tag],
     if env.pushOk then RunResult.failed "ReferenceError: provides is not defined"
     else RunResult.failed "docker push failed")

/-! ## Helper lemmas -/

theorem string_data_inj {a b : String} (h : a.data = b.data) : a = b := by
  cases a
  cases b
  exact congrArg String.mk h

theorem string_append_cancel_left {s a b : String} (h : s ++ a = s ++ b) : a = b := by
  apply string_data_inj
  have h2 := congrArg String.data h
  rw [String.data_append, String.data_append] at h2
  exact List.append_cancel_left h2

theorem string_append_cancel_left2 {s t a b : String} (hne : a ≠ b) :
    s ++ t ++ a ≠ s ++ t ++ b := by
  intro h
  exact hne (string_append_cancel_left h)

theorem string_append_head_ne {a b s t x y : String} {c₁ c₂ : Char}
    (h₁ : a.data.head? = some c₁) (h₂ : b.data.head? = some c₂) (hne : c₁ ≠ c₂) :
    a ++ s ++ x ≠ b ++ t ++ y := by
  intro h
  have h3 := congrArg (fun z => String.data z |>.head?) h
  simp only [String.data_append, List.append_assoc, List.head?_append, h₁, h₂,
    Option.or] at h3
  exact hne (by simpa using h3)

theorem stampAfter_append (dir : String) (init : Option String) (l1 l2 : List Op) :
    stampAfter dir init (l1 ++ l2) = stampAfter dir (stampAfter dir init l1) l2 := by
  induction l1 generalizing init with
  | nil => rfl
  | cons op rest ih => cases op <;> simp [stampAfter, ih]

theorem stampAfter_stamp_last (dir s : String) (init : Option String) (l : List Op) :
    stampAfter dir init (l ++ [Op.stamp dir s]) = some s := by
  rw [stampAfter_append]
  simp [stampAfter]

/-! ## Claim theorems -/

/-- C9: `ensureTask` is first-wins and idempotent on titles: a candidate
whose title already occurs in the collection leaves it unchanged, and
registering two candidates with the same title (into a collection not yet
holding that title) keeps exactly the first. -/
theorem ensureTask_dedup_first_wins :
    (∀ (tasks : List TaskNode) (t : TaskNode),
       tasks.any (fun x => x.title == t.title) = true → ensureTask tasks t = tasks) ∧
    (∀ (tasks : List TaskNode) (t1 t2 : TaskNode), t1.title = t2.title →
       tasks.any (fun x => x.title == t1.title) = false →
       ensureTask (ensureTask tasks t1) t2 = tasks ++ [t1]) := by
  constructor
  · intro tasks t h
    simp [ensureTask, h]
  · intro tasks t1 t2 h12 hnone
    have h1 : ensureTask tasks t1 = tasks ++ [t1] := by
      simp [ensureTask, hnone]
    rw [h1]
    simp [ensureTask, List.any_append, hnone, ← h12]

theorem ensureTask_dedup_first_wins_witness :
    ensureTask [⟨"T", [], ["a"]⟩] ⟨"T", [], ["b"]⟩ = [⟨"T", [], ["a"]⟩] ∧
    ensureTask (ensureTask [] ⟨"T", [], ["a"]⟩) ⟨"T", [], ["b"]⟩ = [] ++ [⟨"T", [], ["a"]⟩] :=
  ⟨ensureTask_dedup_first_wins.1 [⟨"T", [], ["a"]⟩] ⟨"T", [], ["b"]⟩ (by decide),
   ensureTask_dedup_first_wins.2 [] ⟨"T", [], ["a"]⟩ ⟨"T", [], ["b"]⟩ rfl (by decide)⟩

/-- C8: with push enabled and the required `image-on-registry` value
true, the Push Image `run` throws the policy-violation error naming the
tag and performs no `dockerPush` (empty trace). -/
theorem pushImage_policy_violation :
    ∀ (workDir : String) (env : PushEnv), env.push = true → env.onRegistry = true →
      pushImageRun workDir env =
        ([], RunResult.failed
          ("Image " ++ env.tag ++ " already exists on the registry; not pushing")) := by
  intro w env hp hr
  simp [pushImageRun, hp, hr]

theorem pushImage_policy_violation_witness :
    pushImageRun "/w" ⟨"taskcluster/queue:v1", true, true, true⟩ =
      ([], RunResult.failed
        ("Image " ++ "taskcluster/queue:v1" ++ " already exists on the registry; not pushing")) :=
  pushImage_policy_violation "/w" ⟨"taskcluster/queue:v1", true, true, true⟩ rfl rfl

/-- C2 (code bug): the Pull Docker Image `run` returns `undefined`
(`completed none`) instead of a map holding its `docker-image-*` key,
and the Push Image `run`, with push enabled, image absent from the
registry and a successful `dockerPush`, throws a `ReferenceError`
(`return provides` with no `provides` in scope) instead of returning
normally. -/
theorem pull_returns_undefined_and_push_throws :
    pullImageRun "heroku/heroku:16" true =
      ([Op.dockerPull "heroku/heroku:16"], RunResult.completed none) ∧
    pushImageRun "/w" ⟨"taskcluster/queue:v1", false, true, true⟩ =
      ([Op.dockerPush "taskcluster/queue:v1"],
       RunResult.failed "ReferenceError: provides is not defined") :=
  ⟨rfl, rfl⟩

/-- C6: when the computed tag is both in the local image store and on
the registry, the Build Image `run` performs only the probes (no
`dockerPull`, no `dockerBuild`) and skips with its provides map. -/
theorem buildImage_local_and_registry_skips :
    ∀ (name workDir repositoryPrefixStr : String) (env : BuildImageEnv),
      imageLocal env.images (imageTag repositoryPrefixStr name env.exactSource) = true →
      env.imageOnRegistry = true →
      buildImageRun name workDir repositoryPrefixStr env =
        (buildImageProbeOps (imageTag repositoryPrefixStr name env.exactSource),
         RunResult.skipped (buildImageProvides name
           (imageTag repositoryPrefixStr name env.exactSource) env.imageOnRegistry)) := by
  intro name workDir p env hl hr
  simp [buildImageRun, hl, hr]

theorem buildImage_local_and_registry_skips_witness :
    buildImageRun "queue" "/w" "taskcluster/"
      ⟨"/app", "url#v1", [⟨some ["taskcluster/queue:v1"]⟩], true, true, true⟩ =
      (buildImageProbeOps (imageTag "taskcluster/" "queue" "url#v1"),
       RunResult.skipped (buildImageProvides "queue" (imageTag "taskcluster/" "queue" "url#v1") true)) :=
  buildImage_local_and_registry_skips "queue" "/w" "taskcluster/"
    ⟨"/app", "url#v1", [⟨some ["taskcluster/queue:v1"]⟩], true, true, true⟩ (by decide) rfl

/-- C7 (amended): when the computed tag is in the local image store, the
Build Image `run` performs only the probes and skips — but the provided
`service-<name>-image-on-registry` value is the raw registry-probe
result, not necessarily `false`. -/
theorem buildImage_local_skip_reports_probe :
    ∀ (name workDir repositoryPrefixStr : String) (env : BuildImageEnv),
      imageLocal env.images (imageTag repositoryPrefixStr name env.exactSource) = true →
      buildImageRun name workDir repositoryPrefixStr env =
        (buildImageProbeOps (imageTag repositoryPrefixStr name env.exactSource),
         RunResult.skipped (buildImageProvides name
           (imageTag repositoryPrefixStr name env.exactSource) env.imageOnRegistry)) := by
  intro name workDir p env hl
  simp [buildImageRun, hl]

theorem buildImage_local_skip_reports_probe_witness :
    buildImageRun "queue" "/w" "taskcluster/"
      ⟨"/app", "url#v1", [⟨some ["taskcluster/queue:v1"]⟩], false, true, true⟩ =
      (buildImageProbeOps (imageTag "taskcluster/" "queue" "url#v1"),
       RunResult.skipped (buildImageProvides "queue" (imageTag "taskcluster/" "queue" "url#v1") false)) :=
  buildImage_local_skip_reports_probe "queue" "/w" "taskcluster/"
    ⟨"/app", "url#v1", [⟨some ["taskcluster/queue:v1"]⟩], false, true, true⟩ (by decide)

/-- C7 counterexample: with the image both local and on the registry the
skip path provides `service-queue-image-on-registry ↦ true`, not
`false` as the claim states. -/
theorem buildImage_local_skip_on_registry_true :
    buildImageRun "queue" "/w" "taskcluster/"
      ⟨"/app", "url#v1", [⟨some ["taskcluster/queue:v1"]⟩], true, true, true⟩ =
      (buildImageProbeOps "taskcluster/queue:v1",
       RunResult.skipped [("service-queue-docker-image", Value.str "taskcluster/queue:v1"),
                          ("service-queue-image-on-registry", Value.bool true)]) ∧
    Value.bool true ≠ Value.bool false :=
  ⟨rfl, by decide⟩

/-- C5 (amended): the four-line example Procfile yields exactly two
records in input order, names `web` and `worker`, whose command fields
hold the shell-quoted commands. -/
theorem procfile_example_two_records :
    parseProcfile "web: node app.js\n# comment\n\nworker: node worker.js" =
      Except.ok [⟨"web", shellQuote "node app.js"⟩, ⟨"worker", shellQuote "node worker.js"⟩] :=
  rfl

/-- C5 counterexample: the command fields of the two records are the
shell-quoted strings, not the bare commands the claim states. -/
theorem procfile_example_commands_quoted :
    parseProcfile "web: node app.js\n# comment\n\nworker: node worker.js" =
      Except.ok [⟨"web", "'node app.js'"⟩, ⟨"worker", "'node worker.js'"⟩] ∧
    ("'node app.js'" : String) ≠ "node app.js" :=
  ⟨rfl, by decide⟩

/-- C3 counterexample: for service `queue`, no key provided by
`Service queue - Build Image` appears among the requirements of
`Service queue - Generate Docs`; Generate Docs instead requires the key
provided by Compile. -/
theorem docs_does_not_require_buildImage_key :
    ((buildImageTask "queue" "heroku/heroku:16").provides.any
      (fun k => (docsTask "queue" "heroku/heroku:16").requires.contains k)) = false ∧
    "service-queue-built-app-dir" ∈ (docsTask "queue" "heroku/heroku:16").requires ∧
    "service-queue-built-app-dir" ∈ (compileTask "queue" "heroku/heroku:16-build" "bp").provides := by
  exact ⟨by decide, by decide, by decide⟩

/-- C3 (amended): for every service name, Build Image requires the
`service-<name>-built-app-dir` key provided by Compile, and Generate
Docs also requires that same Compile-provided key — it requires no key
provided by Build Image, so the per-service order is compile before
build-image and compile before docs, with no docs-after-build-image
edge; all four stage nodes are in the generated list. -/
theorem stage_dependency_chain :
    ∀ (tasks : List TaskNode) (name stackImage buildImage buildpackName : String),
      ("service-" ++ name ++ "-built-app-dir") ∈ (compileTask name buildImage buildpackName).provides ∧
      ("service-" ++ name ++ "-built-app-dir") ∈ (buildImageTask name stackImage).requires ∧
      ("service-" ++ name ++ "-built-app-dir") ∈ (docsTask name stackImage).requires ∧
      (∀ k ∈ (buildImageTask name stackImage).provides,
        k ∉ (docsTask name stackImage).requires) ∧
      compileTask name buildImage buildpackName ∈
        generateServiceTasks tasks name stackImage buildImage buildpackName ∧
      buildImageTask name stackImage ∈
        generateServiceTasks tasks name stackImage buildImage buildpackName ∧
      docsTask name stackImage ∈
        generateServiceTasks tasks name stackImage buildImage buildpackName := by
  intro tasks name stackImage buildImage buildpackName
  refine ⟨by simp [compileTask], by simp [buildImageTask], by simp [docsTask], ?_, ?_, ?_, ?_⟩
  · intro k hk
    have h1 : ("service-" ++ name ++ "-docker-image") ∉ (docsTask name stackImage).requires := by
      simp only [docsTask, List.mem_cons, List.not_mem_nil, or_false, not_or]
      exact ⟨string_append_head_ne (a := "service-") (b := "repo-") rfl rfl (by decide),
             string_append_cancel_left2 (a := "-docker-image") (b := "-built-app-dir") (by decide),
             string_append_head_ne (a := "service-") (b := "docker-image-") rfl rfl (by decide)⟩
    have h2 : ("service-" ++ name ++ "-image-on-registry") ∉ (docsTask name stackImage).requires := by
      simp only [docsTask, List.mem_cons, List.not_mem_nil, or_false, not_or]
      exact ⟨string_append_head_ne (a := "service-") (b := "repo-") rfl rfl (by decide),
             string_append_cancel_left2 (a := "-image-on-registry") (b := "-built-app-dir") (by decide),
             string_append_head_ne (a := "service-") (b := "docker-image-") rfl rfl (by decide)⟩
    simp only [buildImageTask, List.mem_cons, List.not_mem_nil, or_false] at hk
    rcases hk with hk | hk
    · subst hk; exact h1
    · subst hk; exact h2
  · exact List.mem_append_right _ (by simp [generateServiceTasks])
  · exact List.mem_append_right _ (by simp)
  · exact List.mem_append_right _ (by simp)

theorem stage_dependency_chain_witness :
    ("service-" ++ "queue" ++ "-docker-image") ∉ (docsTask "queue" "heroku/heroku:16").requires :=
  (stage_dependency_chain [] "queue" "heroku/heroku:16" "heroku/heroku:16-build" "bp").2.2.2.1
    ("service-" ++ "queue" ++ "-docker-image") (by decide)

/-- A whitespace character is not `#` and not `:`. -/
theorem isSpaceJS_distinct {c : Char} (h : isSpaceJS c = true) :
    c ≠ '#' ∧ c ≠ ':' := by
  constructor
  · intro he
    subst he
    exact absurd h (by decide)
  · intro he
    subst he
    exact absurd h (by decide)

/-- C10: a line made only of whitespace is not ignored: it survives the
untrimmed blank-line test, its trimmed form fails the regex, and the
whole parse throws with the offending line in the message; in
particular a Procfile whose middle line is a single space fails
entirely. -/
theorem whitespace_only_line_throws :
    (∀ s : String, s ≠ "" → s.data.all isSpaceJS = true →
      parseLine s = Except.error ("unexpected line in Procfile: " ++ s)) ∧
    parseProcfile "web: node app.js\n \nworker: node worker.js" =
      Except.error ("unexpected line in Procfile: " ++ " ") := by
  constructor
  · intro s hne hall
    have hd : s.data ≠ [] := by
      intro h
      exact hne (string_data_inj (by simpa using h))
    obtain ⟨c, cs, hcons⟩ := List.exists_cons_of_ne_nil hd
    have hsp : ∀ x ∈ s.data, isSpaceJS x = true := List.all_eq_true.1 hall
    have hc : isSpaceJS c = true := hsp c (by simp [hcons])
    have htrim : jsTrim s.data = [] := by
      unfold jsTrim
      rw [List.dropWhile_eq_nil_iff.2 hsp]
      simp
    unfold parseLine
    rw [hcons]
    simp only [List.isEmpty_cons, List.head?_cons, Bool.false_or]
    rw [if_neg (by simp [(isSpaceJS_distinct hc).1]), ← hcons, htrim]
    rfl
  · rfl

theorem whitespace_only_line_throws_witness :
    parseLine " " = Except.error ("unexpected line in Procfile: " ++ " ") :=
  whitespace_only_line_throws.1 " " (by decide) (by decide)

/-- C4 counterexample: the line `bad line` contains no colon, yet the
parse succeeds (with name `bad`), because the regex's colon is optional;
so "a remaining line parses iff it has the form name, colon, optional
whitespace, command" is false. -/
theorem colonless_line_parses :
    parseProcfile "bad line" = Except.ok [⟨"bad", "'line'"⟩] ∧
    "bad line".data.all (fun c => !(c == ':')) = true :=
  ⟨rfl, by decide⟩

theorem matchTail_sound {u B : List Char} (h : matchTail u = some B) :
    ∃ W, u = W ++ B ∧ W ≠ [] ∧ (∀ c ∈ W, isSpaceJS c = true) ∧
      (∀ c ∈ B, isLineTerm c = false) := by
  unfold matchTail at h
  by_cases h1 : (u.takeWhile isSpaceJS).isEmpty
  · simp [h1] at h
  · by_cases h2 : (u.dropWhile isSpaceJS).any isLineTerm
    · simp [h1, h2] at h
    · simp only [h1, h2, if_false, Bool.false_eq_true, if_neg, Option.some.injEq] at h
      have h2f : (u.dropWhile isSpaceJS).any isLineTerm = false := by
        simpa using h2
      subst h
      refine ⟨u.takeWhile isSpaceJS, (List.takeWhile_append_dropWhile _ _).symm, ?_, ?_, ?_⟩
      · simpa [List.isEmpty_iff] using h1
      · intro c hc
        exact List.mem_takeWhile_imp hc
      · intro c hc
        have h3 := List.any_eq_false.1 h2f c hc
        simpa using h3

theorem matchTail_complete {W B : List Char} (hW : W ≠ [])
    (hWs : ∀ c ∈ W, isSpaceJS c = true) (hB : ∀ c ∈ B, isLineTerm c = false) :
    (matchTail (W ++ B)).isSome = true := by
  have ht : (W ++ B).takeWhile isSpaceJS = W ++ B.takeWhile isSpaceJS :=
    List.takeWhile_append_of_pos hWs
  have hd : (W ++ B).dropWhile isSpaceJS = B.dropWhile isSpaceJS :=
    List.dropWhile_append_of_pos hWs
  have hne : (W ++ B.takeWhile isSpaceJS).isEmpty = false := by
    cases W with
    | nil => exact absurd rfl hW
    | cons c cs => simp
  have hany : (B.dropWhile isSpaceJS).any isLineTerm = false := by
    apply List.any_eq_false.2
    intro x hx
    have hxB : x ∈ B := List.Sublist.mem hx (List.dropWhile_sublist _)
    simp [hB x hxB]
  unfold matchTail
  simp [ht, hd, hne, hany]

theorem tryColon_sound {A R n b : List Char} (h : tryColon A R = some (n, b)) :
    ∃ R2 B, R = ':' :: R2 ∧ matchTail R2 = some B ∧ n = A ∧ b = B := by
  cases R with
  | nil => simp [tryColon] at h
  | cons c R2 =>
    simp only [tryColon] at h
    by_cases hc : c == ':'
    · rw [if_pos hc] at h
      cases hmt : matchTail R2 with
      | none => rw [hmt] at h; simp at h
      | some B =>
        rw [hmt] at h
        have h' : A = n ∧ B = b := by
          simpa using h
        exact ⟨R2, B, by rw [show c = ':' from by simpa using hc], hmt,
          h'.1.symm, h'.2.symm⟩
    · rw [if_neg hc] at h
      simp at h

theorem matchFrom_sound : ∀ (arev : List Char), (∀ c ∈ arev, (c == ':') = false) →
    ∀ (R n b : List Char), matchFrom arev R = some (n, b) →
      RegexForm (arev.reverse ++ R) := by
  intro arev
  induction arev with
  | nil =>
    intro h R n b hm
    simp [matchFrom] at hm
  | cons a arev ih =>
    intro hcf R n b hm
    unfold matchFrom at hm
    cases htc : tryColon ((a :: arev).reverse) R with
    | some r =>
      rw [htc] at hm
      obtain ⟨n2, b2⟩ := r
      obtain ⟨R2, B, hR, hmt, hn, hb⟩ := tryColon_sound htc
      obtain ⟨W, hR2, hWne, hWs, hB⟩ := matchTail_sound hmt
      subst hR
      subst hR2
      refine ⟨(a :: arev).reverse, [':'], W, B, ?_, by simp, ?_, Or.inr rfl, hWne, hWs, hB⟩
      · simp
      · intro x hx
        exact hcf x (List.mem_reverse.1 hx)
    | none =>
      rw [htc] at hm
      cases hmt : matchTail R with
      | some B =>
        rw [hmt] at hm
        obtain ⟨W, hR, hWne, hWs, hB⟩ := matchTail_sound hmt
        subst hR
        refine ⟨(a :: arev).reverse, [], W, B, ?_, by simp, ?_, Or.inl rfl, hWne, hWs, hB⟩
        · simp
        · intro x hx
          exact hcf x (List.mem_reverse.1 hx)
      | none =>
        rw [hmt] at hm
        simp only [Option.map_none] at hm
        have h2 := ih (fun c hc => hcf c (List.mem_cons_of_mem a hc)) (a :: R) n b hm
        have heq : arev.reverse ++ (a :: R) = (a :: arev).reverse ++ R := by
          simp
        rwa [heq] at h2

theorem matchFrom_step (a : Char) (arev R : List Char)
    (h : (matchFrom arev (a :: R)).isSome = true) :
    (matchFrom (a :: arev) R).isSome = true := by
  unfold matchFrom
  cases htc : tryColon ((a :: arev).reverse) R with
  | some r => simp
  | none =>
    cases hmt : matchTail R with
    | some B => simp
    | none => simpa using h

theorem matchFrom_shift : ∀ (D arev R : List Char),
    (matchFrom arev (D ++ R)).isSome = true →
    (matchFrom (D.reverse ++ arev) R).isSome = true := by
  intro D
  induction D with
  | nil =>
    intro arev R h
    simpa using h
  | cons d D ih =>
    intro arev R h
    have h1 := matchFrom_step d arev (D ++ R) (by simpa using h)
    have h2 := ih (d :: arev) R h1
    have heq : (d :: D).reverse ++ arev = D.reverse ++ (d :: arev) := by
      simp
    rwa [heq]

theorem matchFrom_base {A c W B : List Char} (hA : A ≠ [])
    (hc : c = [] ∨ c = [':']) (hW : W ≠ []) (hWs : ∀ x ∈ W, isSpaceJS x = true)
    (hB : ∀ x ∈ B, isLineTerm x = false) :
    (matchFrom A.reverse (c ++ (W ++ B))).isSome = true := by
  obtain ⟨a, arev, har⟩ : ∃ a arev, A.reverse = a :: arev := by
    cases hrev : A.reverse with
    | nil =>
      have : A = [] := by simpa using congrArg List.reverse hrev
      exact absurd this hA
    | cons x xs => exact ⟨x, xs, rfl⟩
  have hAr : (a :: arev).reverse = A := by
    rw [← har]
    simp
  have hmtWB := matchTail_complete hW hWs hB
  cases hmt2 : matchTail (W ++ B) with
  | none => rw [hmt2] at hmtWB; simp at hmtWB
  | some B2 =>
    rw [har]
    rcases hc with hc | hc
    · subst hc
      obtain ⟨w, W2, hWc⟩ := List.exists_cons_of_ne_nil hW
      have hw : isSpaceJS w = true := hWs w (by simp [hWc])
      have hwc : (w == ':') = false := by
        have h2 := (isSpaceJS_distinct hw).2
        simpa using h2
      have htc : tryColon ((a :: arev).reverse) (([] : List Char) ++ (W ++ B)) = none := by
        rw [hWc]
        simp [tryColon, hwc]
      unfold matchFrom
      rw [htc]
      simp only [List.nil_append] at hmt2 ⊢
      rw [hmt2]
      simp
    · subst hc
      have htc : tryColon ((a :: arev).reverse) (([':'] : List Char) ++ (W ++ B)) =
          some ((a :: arev).reverse, B2) := by
        simp [tryColon, hmt2]
      unfold matchFrom
      rw [htc]
      simp

theorem execMatch_isSome_iff (t : List Char) :
    (execMatch t).isSome = true ↔ RegexForm t := by
  constructor
  · intro h
    unfold execMatch at h
    cases hm : matchFrom ((t.takeWhile (fun c => !(c == ':'))).reverse)
        (t.dropWhile (fun c => !(c == ':'))) with
    | none => rw [hm] at h; simp at h
    | some r =>
      obtain ⟨n, b⟩ := r
      have hcf : ∀ c ∈ (t.takeWhile (fun c => !(c == ':'))).reverse, (c == ':') = false := by
        intro c hc
        have h2 := List.mem_takeWhile_imp (List.mem_reverse.1 hc)
        simpa using h2
      have h3 := matchFrom_sound _ hcf _ n b hm
      simpa [List.takeWhile_append_dropWhile] using h3
  · rintro ⟨A, c, W, B, heq, hA, hcf, hc, hW, hWs, hB⟩
    subst heq
    unfold execMatch
    have hAall : ∀ x ∈ A, (!(x == ':')) = true := by
      intro x hx
      simp [hcf x hx]
    have hT : (A ++ c ++ W ++ B).takeWhile (fun c => !(c == ':')) =
        A ++ ((c ++ (W ++ B)).takeWhile (fun c => !(c == ':'))) := by
      rw [List.append_assoc, List.append_assoc]
      exact List.takeWhile_append_of_pos hAall
    have hD : (A ++ c ++ W ++ B).dropWhile (fun c => !(c == ':')) =
        (c ++ (W ++ B)).dropWhile (fun c => !(c == ':')) := by
      rw [List.append_assoc, List.append_assoc]
      exact List.dropWhile_append_of_pos hAall
    have hbase := matchFrom_base hA hc hW hWs hB
    rw [show (c ++ (W ++ B)) =
        ((c ++ (W ++ B)).takeWhile (fun c => !(c == ':'))) ++
        ((c ++ (W ++ B)).dropWhile (fun c => !(c == ':'))) from
      (List.takeWhile_append_dropWhile _ _).symm] at hbase
    have hshift := matchFrom_shift _ _ _ hbase
    rw [hT, hD, List.reverse_append]
    exact hshift

theorem parseLines_error_mem : ∀ (ls : List String) (l : String), l ∈ ls →
    exceptIsError (parseLine l) = true → exceptIsError (parseLines ls) = true := by
  intro ls
  induction ls with
  | nil =>
    intro l h herr
    simp at h
  | cons x xs ih =>
    intro l hmem herr
    rcases List.mem_cons.1 hmem with h | h
    · subst h
      unfold parseLines
      cases hp : parseLine l with
      | error e => simp [exceptIsError]
      | ok v =>
        rw [hp] at herr
        simp [exceptIsError] at herr
    · unfold parseLines
      cases hp : parseLine x with
      | error e => simp [exceptIsError]
      | ok v =>
        cases v with
        | none => exact ih l h herr
        | some p =>
          have h2 := ih l h herr
          cases hq : parseLines xs with
          | error e => simp [exceptIsError, Except.map]
          | ok ps =>
            rw [hq] at h2
            simp [exceptIsError] at h2

theorem compileRun_stamped (name workDir buildImage : String) (env : CompileEnv)
    (h : dirStamped env.appDirStamp env.exactSource = true) :
    compileRun name workDir buildImage env =
      ([], RunResult.skipped (compileProvides name workDir)) := by
  unfold compileRun
  rw [if_pos h]

theorem compileRun_unstamped_head (name workDir buildImage : String) (env : CompileEnv)
    (h : dirStamped env.appDirStamp env.exactSource = false) :
    ∃ rest, (compileRun name workDir buildImage env).1 =
      Op.rimraf (workDir ++ "/app") :: rest := by
  unfold compileRun
  rw [if_neg (by simp [h])]
  repeat' split
  all_goals exact ⟨_, rfl⟩

theorem compileRun_success_shape (name workDir buildImage : String) (env : CompileEnv)
    (pf : String) (ps : List Proc)
    (hst : dirStamped env.appDirStamp env.exactSource = false)
    (hco : env.copyOk = true) (hde : env.detectOk = true) (hcm : env.compileOk = true)
    (hpf : env.procfile = some pf) (hpp : parseProcfile pf = Except.ok ps) :
    compileRun name workDir buildImage env =
      (([Op.rimraf (workDir ++ "/app"), Op.step "Copy Source Repository",
         Op.copyDir env.repoDir (workDir ++ "/app"),
         Op.step "Buildpack Detect",
         Op.dockerRun buildImage ["/buildpack/bin/detect", "/app"] (workDir ++ "/detect.log"),
         Op.step "Buildpack Compile"]
        ++ (if env.envDirExists then [Op.rimraf (workDir ++ "/env")] else [])
        ++ [Op.mkdir (workDir ++ "/env")]
        ++ (if env.cacheDirExists then [] else [Op.mkdir (workDir ++ "/cache")])
        ++ [Op.dockerRun buildImage ["/buildpack/bin/compile", "/app", "/cache", "/env"]
              (workDir ++ "/compile.log"),
            Op.step "Create Entrypoint Script",
            Op.writeFile (workDir ++ "/app" ++ "/entrypoint")])
       ++ [Op.stamp (workDir ++ "/app") env.exactSource],
       RunResult.completed (some (compileProvides name workDir))) := by
  unfold compileRun
  rw [if_neg (by simp [hst])]
  rw [hco, hde, hcm, hpf]
  simp only [hpp, Bool.not_true, Bool.false_eq_true, if_false]
  simp [List.append_assoc]

theorem compileRun_stamp_mem (name workDir buildImage : String) (env : CompileEnv)
    (d s : String) (hmem : Op.stamp d s ∈ (compileRun name workDir buildImage env).1) :
    (compileRun name workDir buildImage env).2 =
      RunResult.completed (some (compileProvides name workDir)) ∧
    (compileRun name workDir buildImage env).1.getLast? =
      some (Op.stamp (workDir ++ "/app") env.exactSource) := by
  by_cases hst : dirStamped env.appDirStamp env.exactSource = true
  · rw [compileRun_stamped _ _ _ _ hst] at hmem
    simp at hmem
  · have hst2 : dirStamped env.appDirStamp env.exactSource = false := by
      simpa using hst
    cases hco : env.copyOk
    · exfalso
      revert hmem
      simp [compileRun, hst2, hco]
    · cases hde : env.detectOk
      · exfalso
        revert hmem
        simp [compileRun, hst2, hco, hde]
      · cases hcm : env.compileOk
        · exfalso
          revert hmem
          cases hee : env.envDirExists <;> cases hce : env.cacheDirExists <;>
            simp [compileRun, hst2, hco, hde, hcm, hee, hce]
        · cases hpf : env.procfile with
          | none =>
            exfalso
            revert hmem
            cases hee : env.envDirExists <;> cases hce : env.cacheDirExists <;>
              simp [compileRun, hst2, hco, hde, hcm, hpf, hee, hce]
          | some pf =>
            cases hpp : parseProcfile pf with
            | error e =>
              exfalso
              revert hmem
              cases hee : env.envDirExists <;> cases hce : env.cacheDirExists <;>
                simp [compileRun, hst2, hco, hde, hcm, hpf, hpp, hee, hce]
            | ok ps =>
              rw [compileRun_success_shape name workDir buildImage env pf ps
                hst2 hco hde hcm hpf hpp]
              exact ⟨rfl, List.getLast?_concat _⟩

theorem stampAfter_of_getLast {l : List Op} {dir s : String} (init : Option String)
    (h : l.getLast? = some (Op.stamp dir s)) : stampAfter dir init l = some s := by
  obtain ⟨l2, hl⟩ := List.getLast?_eq_some_iff.1 h
  subst hl
  exact stampAfter_stamp_last dir s init l2

theorem compileRun_second_skip (name workDir buildImage : String) (env : CompileEnv)
    (hres : (compileRun name workDir buildImage env).2 =
      RunResult.completed (some (compileProvides name workDir))) :
    compileRun name workDir buildImage
      {env with appDirStamp := (stampAfter (workDir ++ "/app") env.appDirStamp (compileRun name workDir buildImage env).1)} =
      ([], RunResult.skipped (compileProvides name workDir)) := by
  by_cases hst : dirStamped env.appDirStamp env.exactSource = true
  · rw [compileRun_stamped _ _ _ _ hst] at hres
    simp at hres
  · have hst2 : dirStamped env.appDirStamp env.exactSource = false := by
      simpa using hst
    cases hco : env.copyOk
    · exfalso
      revert hres
      simp [compileRun, hst2, hco]
    · cases hde : env.detectOk
      · exfalso
        revert hres
        simp [compileRun, hst2, hco, hde]
      · cases hcm : env.compileOk
        · exfalso
          revert hres
          simp [compileRun, hst2, hco, hde, hcm]
        · cases hpf : env.procfile with
          | none =>
            exfalso
            revert hres
            simp [compileRun, hst2, hco, hde, hcm, hpf]
          | some pf =>
            cases hpp : parseProcfile pf with
            | error e =>
              exfalso
              revert hres
              simp [compileRun, hst2, hco, hde, hcm, hpf, hpp]
            | ok ps =>
              have hshape := compileRun_success_shape name workDir buildImage env pf ps
                hst2 hco hde hcm hpf hpp
              have hlast : (compileRun name workDir buildImage env).1.getLast? =
                  some (Op.stamp (workDir ++ "/app") env.exactSource) := by
                rw [hshape]
                exact List.getLast?_concat _
              have hsa : stampAfter (workDir ++ "/app") env.appDirStamp
                  (compileRun name workDir buildImage env).1 = some env.exactSource :=
                stampAfter_of_getLast env.appDirStamp hlast
              apply compileRun_stamped
              simp [hsa, dirStamped]

theorem docsRun_stamped (name baseDir workDir stackImage : String) (env : DocsEnv)
    (h : dirStamped env.docsDirStamp env.exactSource = true) :
    docsRun name baseDir workDir stackImage env =
      ([], RunResult.skipped (docsProvides name baseDir)) := by
  unfold docsRun
  rw [if_pos h]

theorem docsRun_unstamped_head (name baseDir workDir stackImage : String) (env : DocsEnv)
    (h : dirStamped env.docsDirStamp env.exactSource = false) :
    ∃ rest, (docsRun name baseDir workDir stackImage env).1 =
      Op.rimraf (baseDir ++ "/docs/" ++ name) :: rest := by
  unfold docsRun
  rw [if_neg (by simp [h])]
  repeat' split
  all_goals exact ⟨_, rfl⟩

theorem docsRun_success_shape (name baseDir workDir stackImage : String) (env : DocsEnv)
    (hst : dirStamped env.docsDirStamp env.exactSource = false) (hg : env.genOk = true) :
    docsRun name baseDir workDir stackImage env =
      ([Op.rimraf (baseDir ++ "/docs/" ++ name), Op.mkdirp (baseDir ++ "/docs"),
        Op.dockerRun stackImage ["/app/entrypoint", "write-docs"]
          (workDir ++ "/generate-docs.log")]
       ++ [Op.stamp (baseDir ++ "/docs/" ++ name) env.exactSource],
       RunResult.completed (some (docsProvides name baseDir))) := by
  unfold docsRun
  rw [if_neg (by simp [hst]), if_pos hg]

theorem docsRun_stamp_mem (name baseDir workDir stackImage : String) (env : DocsEnv)
    (d s : String) (hmem : Op.stamp d s ∈ (docsRun name baseDir workDir stackImage env).1) :
    (docsRun name baseDir workDir stackImage env).2 =
      RunResult.completed (some (docsProvides name baseDir)) ∧
    (docsRun name baseDir workDir stackImage env).1.getLast? =
      some (Op.stamp (baseDir ++ "/docs/" ++ name) env.exactSource) := by
  by_cases hst : dirStamped env.docsDirStamp env.exactSource = true
  · rw [docsRun_stamped _ _ _ _ _ hst] at hmem
    simp at hmem
  · have hst2 : dirStamped env.docsDirStamp env.exactSource = false := by
      simpa using hst
    cases hg : env.genOk
    · exfalso
      revert hmem
      simp [docsRun, hst2, hg]
    · rw [docsRun_success_shape _ _ _ _ _ hst2 hg]
      exact ⟨rfl, List.getLast?_concat _⟩

theorem docsRun_second_skip (name baseDir workDir stackImage : String) (env : DocsEnv)
    (hres : (docsRun name baseDir workDir stackImage env).2 =
      RunResult.completed (some (docsProvides name baseDir))) :
    docsRun name baseDir workDir stackImage
      {env with docsDirStamp := (stampAfter (baseDir ++ "/docs/" ++ name) env.docsDirStamp (docsRun name baseDir workDir stackImage env).1)} =
      ([], RunResult.skipped (docsProvides name baseDir)) := by
  by_cases hst : dirStamped env.docsDirStamp env.exactSource = true
  · rw [docsRun_stamped _ _ _ _ _ hst] at hres
    simp at hres
  · have hst2 : dirStamped env.docsDirStamp env.exactSource = false := by
      simpa using hst
    cases hg : env.genOk
    · exfalso
      revert hres
      simp [docsRun, hst2, hg]
    · have hshape := docsRun_success_shape name baseDir workDir stackImage env hst2 hg
      have hlast : (docsRun name baseDir workDir stackImage env).1.getLast? =
          some (Op.stamp (baseDir ++ "/docs/" ++ name) env.exactSource) := by
        rw [hshape]
        exact List.getLast?_concat _
      have hsa : stampAfter (baseDir ++ "/docs/" ++ name) env.docsDirStamp
          (docsRun name baseDir workDir stackImage env).1 = some env.exactSource :=
        stampAfter_of_getLast env.docsDirStamp hlast
      apply docsRun_stamped
      simp [hsa, dirStamped]

/-- C1: for both the Compile and the Generate Docs stage: when the output
directory is stamped with the exact source, `run` skips with its provides
map and performs no operation at all; when not stamped, the first
operation is removing the output directory; a stamp is written only on a
fully successful run and only as the very last operation; and after a
successful run, invoking the stage again on the resulting stamp state
returns the identical provides map via skip with an empty trace. -/
theorem stamped_stage_skip_and_idempotence :
    ∀ (name workDir buildImage baseDir stackImage : String)
      (env : CompileEnv) (denv : DocsEnv),
      (dirStamped env.appDirStamp env.exactSource = true →
        compileRun name workDir buildImage env =
          ([], RunResult.skipped (compileProvides name workDir))) ∧
      (dirStamped env.appDirStamp env.exactSource = false →
        ∃ rest, (compileRun name workDir buildImage env).1 =
          Op.rimraf (workDir ++ "/app") :: rest) ∧
      (∀ d s, Op.stamp d s ∈ (compileRun name workDir buildImage env).1 →
        (compileRun name workDir buildImage env).2 =
          RunResult.completed (some (compileProvides name workDir)) ∧
        (compileRun name workDir buildImage env).1.getLast? =
          some (Op.stamp (workDir ++ "/app") env.exactSource)) ∧
      ((compileRun name workDir buildImage env).2 =
          RunResult.completed (some (compileProvides name workDir)) →
        compileRun name workDir buildImage
          {env with appDirStamp := (stampAfter (workDir ++ "/app") env.appDirStamp (compileRun name workDir buildImage env).1)} =
          ([], RunResult.skipped (compileProvides name workDir))) ∧
      (dirStamped denv.docsDirStamp denv.exactSource = true →
        docsRun name baseDir workDir stackImage denv =
          ([], RunResult.skipped (docsProvides name baseDir))) ∧
      (dirStamped denv.docsDirStamp denv.exactSource = false →
        ∃ rest, (docsRun name baseDir workDir stackImage denv).1 =
          Op.rimraf (baseDir ++ "/docs/" ++ name) :: rest) ∧
      (∀ d s, Op.stamp d s ∈ (docsRun name baseDir workDir stackImage denv).1 →
        (docsRun name baseDir workDir stackImage denv).2 =
          RunResult.completed (some (docsProvides name baseDir)) ∧
        (docsRun name baseDir workDir stackImage denv).1.getLast? =
          some (Op.stamp (baseDir ++ "/docs/" ++ name) denv.exactSource)) ∧
      ((docsRun name baseDir workDir stackImage denv).2 =
          RunResult.completed (some (docsProvides name baseDir)) →
        docsRun name baseDir workDir stackImage
          {denv with docsDirStamp := (stampAfter (baseDir ++ "/docs/" ++ name) denv.docsDirStamp (docsRun name baseDir workDir stackImage denv).1)} =
          ([], RunResult.skipped (docsProvides name baseDir))) := by
  intro name workDir buildImage baseDir stackImage env denv
  exact ⟨compileRun_stamped name workDir buildImage env,
    compileRun_unstamped_head name workDir buildImage env,
    fun d s hmem => compileRun_stamp_mem name workDir buildImage env d s hmem,
    compileRun_second_skip name workDir buildImage env,
    docsRun_stamped name baseDir workDir stackImage denv,
    docsRun_unstamped_head name baseDir workDir stackImage denv,
    fun d s hmem => docsRun_stamp_mem name baseDir workDir stackImage denv d s hmem,
    docsRun_second_skip name baseDir workDir stackImage denv⟩

theorem stamped_stage_skip_and_idempotence_witness :
    (compileRun "queue" "/w" "hb"
        ⟨"/r", "u#1", "/bp", some "u#1", true, true, true, false, false, some "web: x"⟩ =
      ([], RunResult.skipped (compileProvides "queue" "/w"))) ∧
    (∃ rest, (compileRun "queue" "/w" "hb"
        ⟨"/r", "u#1", "/bp", none, true, true, true, false, false, some "web: x"⟩).1 =
      Op.rimraf ("/w" ++ "/app") :: rest) ∧
    ((compileRun "queue" "/w" "hb"
        ⟨"/r", "u#1", "/bp", none, true, true, true, false, false, some "web: x"⟩).2 =
      RunResult.completed (some (compileProvides "queue" "/w")) ∧
     (compileRun "queue" "/w" "hb"
        ⟨"/r", "u#1", "/bp", none, true, true, true, false, false, some "web: x"⟩).1.getLast? =
      some (Op.stamp ("/w" ++ "/app") "u#1")) ∧
    (compileRun "queue" "/w" "hb"
      {(⟨"/r", "u#1", "/bp", none, true, true, true, false, false, some "web: x"⟩ : CompileEnv) with appDirStamp := (stampAfter ("/w" ++ "/app") none (compileRun "queue" "/w" "hb" ⟨"/r", "u#1", "/bp", none, true, true, true, false, false, some "web: x"⟩).1)} =
      ([], RunResult.skipped (compileProvides "queue" "/w"))) ∧
    (docsRun "queue" "/b" "/w" "hs" ⟨"/a", "u#1", some "u#1", true⟩ =
      ([], RunResult.skipped (docsProvides "queue" "/b"))) ∧
    (∃ rest, (docsRun "queue" "/b" "/w" "hs" ⟨"/a", "u#1", none, true⟩).1 =
      Op.rimraf ("/b" ++ "/docs/" ++ "queue") :: rest) ∧
    (docsRun "queue" "/b" "/w" "hs"
      {(⟨"/a", "u#1", none, true⟩ : DocsEnv) with docsDirStamp := (stampAfter ("/b" ++ "/docs/" ++ "queue") none (docsRun "queue" "/b" "/w" "hs" ⟨"/a", "u#1", none, true⟩).1)} =
      ([], RunResult.skipped (docsProvides "queue" "/b"))) :=
  ⟨(stamped_stage_skip_and_idempotence "queue" "/w" "hb" "/b" "hs"
      ⟨"/r", "u#1", "/bp", some "u#1", true, true, true, false, false, some "web: x"⟩
      ⟨"/a", "u#1", some "u#1", true⟩).1 (by decide),
   (stamped_stage_skip_and_idempotence "queue" "/w" "hb" "/b" "hs"
      ⟨"/r", "u#1", "/bp", none, true, true, true, false, false, some "web: x"⟩
      ⟨"/a", "u#1", none, true⟩).2.1 (by decide),
   (stamped_stage_skip_and_idempotence "queue" "/w" "hb" "/b" "hs"
      ⟨"/r", "u#1", "/bp", none, true, true, true, false, false, some "web: x"⟩
      ⟨"/a", "u#1", none, true⟩).2.2.1 ("/w" ++ "/app") "u#1" (by decide),
   (stamped_stage_skip_and_idempotence "queue" "/w" "hb" "/b" "hs"
      ⟨"/r", "u#1", "/bp", none, true, true, true, false, false, some "web: x"⟩
      ⟨"/a", "u#1", none, true⟩).2.2.2.1 (by rfl),
   (stamped_stage_skip_and_idempotence "queue" "/w" "hb" "/b" "hs"
      ⟨"/r", "u#1", "/bp", some "u#1", true, true, true, false, false, some "web: x"⟩
      ⟨"/a", "u#1", some "u#1", true⟩).2.2.2.2.1 (by decide),
   (stamped_stage_skip_and_idempotence "queue" "/w" "hb" "/b" "hs"
      ⟨"/r", "u#1", "/bp", none, true, true, true, false, false, some "web: x"⟩
      ⟨"/a", "u#1", none, true⟩).2.2.2.2.2.1 (by decide),
   (stamped_stage_skip_and_idempotence "queue" "/w" "hb" "/b" "hs"
      ⟨"/r", "u#1", "/bp", none, true, true, true, false, false, some "web: x"⟩
      ⟨"/a", "u#1", none, true⟩).2.2.2.2.2.2.2 (by rfl)⟩

/-- C4 (amended): a trimmed Procfile line matches the parsing regex iff
it decomposes as a nonempty colon-free name, an optional colon, at least
one whitespace character, and a remainder without line terminators — the
colon is optional and the whitespace mandatory, so `badline` (no
whitespace) fails while a colon-less line with internal whitespace
parses; and any retained line whose parse throws makes the whole
Procfile parse throw, producing zero records. -/
theorem procfile_line_parse_characterization :
    (∀ t : List Char, (execMatch t).isSome = true ↔ RegexForm t) ∧
    execMatch (jsTrim "badline".data) = none ∧
    (∀ (text line : String), line ∈ (splitChar '\n' text.data).map String.mk →
      exceptIsError (parseLine line) = true →
      exceptIsError (parseProcfile text) = true) := by
  refine ⟨execMatch_isSome_iff, by decide, ?_⟩
  intro text line hmem herr
  unfold parseProcfile
  exact parseLines_error_mem _ line hmem herr

theorem procfile_line_parse_characterization_witness :
    exceptIsError (parseProcfile "web: node app.js\nbadline") = true :=
  procfile_line_parse_characterization.2.2 "web: node app.js\nbadline" "badline"
    (by decide) (by decide)
